import Mathlib

/-!
Verification of the EAGLE .brd normalization core (Brd_Viewer.py).

This file shallowly embeds the data model, the document parser
(EagleParser), the per-placement affine instancing transforms used by
BRDViewer._draw_element_shapes and EagleParser._compute_bounds, the bounds
aggregator and the net index, and proves or refutes the frozen claims
about them.

Modelling conventions:
- Python float coordinates are modelled as rationals.
- The composition math.cos(math.radians d) and math.sin(math.radians d)
  is modelled by abstract parameters cosD sinD : Q -> Q passed to the
  functions that need them; theorems that depend on trigonometric facts
  take them as hypotheses (for example evenness of cosine), and concrete
  witnesses instantiate them with cosDeg and sinDeg below, which carry the
  exact values of cosine and sine on the quarter-turn degree grid.
- Python str.lstrip with a single-character argument is dropWhile on that
  character; Python float() and int() on attribute strings are modelled by
  pyFloat? and pyInt? over the plain decimal grammar (sign, digits,
  optional fraction), which is the fragment the source relies on; both
  return none exactly when the Python call would raise ValueError on such
  input (for example a string with a leading letter).
- XML documents are a tree with tag, attributes, text and children;
  find and findall search direct children, as ElementTree does.
-/

set_option autoImplicit false
set_option maxRecDepth 3000

namespace Brd

/-! ## Python string and number primitives -/

/-- Python s.lstrip(c) for a single character c: drop leading copies of c. -/
def lstripChar (cs : List Char) (c : Char) : List Char :=
  cs.dropWhile (fun a => a == c)

/-- Numeric value of a digit run (most significant first). -/
def natOfDigits (cs : List Char) : Nat :=
  cs.foldl (fun n c => 10 * n + (c.toNat - 48)) 0

/-- Python float() on an unsigned decimal: digits, digits.digits,
digits. or .digits; none when the string has no digits or a stray
character, in which case Python raises ValueError. -/
def pyFloatUnsigned (cs : List Char) : Option ℚ :=
  let intPart := cs.takeWhile Char.isDigit
  let rest := cs.dropWhile Char.isDigit
  match rest with
  | [] => if intPart.isEmpty then none else some ((natOfDigits intPart : ℚ))
  | '.' :: frac =>
      if frac.all Char.isDigit && !(intPart.isEmpty && frac.isEmpty) then
        some ((natOfDigits intPart : ℚ) + (natOfDigits frac : ℚ) / 10 ^ frac.length)
      else none
  | _ => none

/-- Python float() on attribute text: optional sign then unsigned decimal. -/
def pyFloat? (cs : List Char) : Option ℚ :=
  match cs with
  | '-' :: rest => (pyFloatUnsigned rest).map (fun q => -q)
  | '+' :: rest => pyFloatUnsigned rest
  | _ => pyFloatUnsigned cs

/-- Python int() on attribute text: optional sign then digits. -/
def pyInt? (cs : List Char) : Option ℤ :=
  match cs with
  | '-' :: rest =>
      if !rest.isEmpty && rest.all Char.isDigit then some (-(natOfDigits rest : ℤ)) else none
  | '+' :: rest =>
      if !rest.isEmpty && rest.all Char.isDigit then some ((natOfDigits rest : ℤ)) else none
  | _ =>
      if !cs.isEmpty && cs.all Char.isDigit then some ((natOfDigits cs : ℤ)) else none

/-! ## Exact trigonometric values on the quarter-turn grid

cosDeg d and sinDeg d equal cos (radians d) and sin (radians d) for d in
{-180, -90, 0, 90, 180}; away from that grid the values are unused by any
concrete statement in this file (abstract theorems quantify over the trig
functions instead). cosDeg is even and sinDeg is odd, as the real
functions are. -/

def cosDeg (d : ℚ) : ℚ :=
  if d = 90 ∨ d = -90 then 0 else if d = 180 ∨ d = -180 then -1 else 1

def sinDeg (d : ℚ) : ℚ :=
  if d = 90 then 1 else if d = -90 then -1 else 0

theorem cosDeg_even (d : ℚ) : cosDeg (-d) = cosDeg d := by
  have h1 : (-d = 90 ∨ -d = -90) ↔ (d = 90 ∨ d = -90) := by
    constructor
    · rintro (h | h)
      · right; linarith
      · left; linarith
    · rintro (h | h)
      · right; rw [h]; try norm_num
      · left; rw [h]; try norm_num
  have h2 : (-d = 180 ∨ -d = -180) ↔ (d = 180 ∨ d = -180) := by
    constructor
    · rintro (h | h)
      · right; linarith
      · left; linarith
    · rintro (h | h)
      · right; rw [h]; try norm_num
      · left; rw [h]; try norm_num
  simp only [cosDeg, h1, h2]

theorem sinDeg_odd (d : ℚ) : sinDeg (-d) = -sinDeg d := by
  unfold sinDeg
  rcases eq_or_ne d 90 with h90 | h90
  · subst h90; norm_num
  · rcases eq_or_ne d (-90) with hm90 | hm90
    · subst hm90; norm_num
    · have h1 : -d ≠ 90 := by
        intro h; apply hm90; linarith [h]
      have h2 : -d ≠ -90 := by
        intro h; apply h90; linarith [h]
      simp [h90, hm90, h1, h2]

/-! ## XML documents (ElementTree fragment used by the source) -/

inductive Xml : Type where
  | mk (tag : String) (attrs : List (String × String)) (text : String)
       (children : List Xml)

def Xml.tag : Xml → String
  | .mk t _ _ _ => t

def Xml.attrs : Xml → List (String × String)
  | .mk _ a _ _ => a

def Xml.textOf : Xml → String
  | .mk _ _ tx _ => tx

def Xml.children : Xml → List Xml
  | .mk _ _ _ c => c

/-- ElementTree el.get(key): first attribute with that name. -/
def Xml.get? (x : Xml) (k : String) : Option String :=
  (x.attrs.find? (fun p => p.1 == k)).map Prod.snd

/-- ElementTree el.get(key, default). -/
def Xml.getD (x : Xml) (k d : String) : String :=
  (x.get? k).getD d

/-- ElementTree el.find(tag): first direct child with that tag. -/
def Xml.find? (x : Xml) (t : String) : Option Xml :=
  x.children.find? (fun c => c.tag == t)

/-- ElementTree el.findall(tag): all direct children with that tag. -/
def Xml.findall (x : Xml) (t : String) : List Xml :=
  x.children.filter (fun c => c.tag == t)

/-! ## Data structures (the dataclasses of Brd_Viewer.py) -/

structure Layer where
  number : ℤ
  name : String
  color : ℤ
  visible : Bool
  active : Bool
  deriving DecidableEq

structure Wire where
  x1 : ℚ
  y1 : ℚ
  x2 : ℚ
  y2 : ℚ
  width : ℚ
  layer : ℤ
  kind : String
  net : String
  deriving DecidableEq

structure Via where
  x : ℚ
  y : ℚ
  drill : ℚ
  diameter : ℚ
  extent : String
  net : String
  deriving DecidableEq

structure Pad where
  name : String
  x : ℚ
  y : ℚ
  drill : ℚ
  diameter : ℚ
  dx : ℚ
  dy : ℚ
  shape : String
  layer : ℤ
  rot : ℚ
  deriving DecidableEq

structure SMD where
  name : String
  x : ℚ
  y : ℚ
  dx : ℚ
  dy : ℚ
  layer : ℤ
  roundness : ℚ
  rot : ℚ
  deriving DecidableEq

structure Circle where
  x : ℚ
  y : ℚ
  radius : ℚ
  width : ℚ
  layer : ℤ
  deriving DecidableEq

structure Rect where
  x1 : ℚ
  y1 : ℚ
  x2 : ℚ
  y2 : ℚ
  layer : ℤ
  rot : ℚ
  deriving DecidableEq

structure Element where
  name : String
  value : String
  library : String
  package : String
  x : ℚ
  y : ℚ
  rot : String
  deriving DecidableEq

structure Polygon where
  vertices : List (ℚ × ℚ)
  layer : ℤ
  width : ℚ
  net : String
  fill : Bool
  is_outline : Bool
  deriving DecidableEq

structure Text where
  x : ℚ
  y : ℚ
  text : String
  layer : ℤ
  size : ℚ
  rot : ℚ
  deriving DecidableEq

/-- A package shape: the Union[Wire, Pad, SMD, Circle, Rect, Polygon] of
Board.packages. -/
inductive Shape : Type where
  | wire (w : Wire)
  | pad (p : Pad)
  | smd (s : SMD)
  | circle (c : Circle)
  | rect (r : Rect)
  | poly (p : Polygon)
  deriving DecidableEq

def Shape.wireOf : Shape → Option Wire
  | .wire w => some w
  | _ => none

def Shape.padOf : Shape → Option Pad
  | .pad p => some p
  | _ => none

def Shape.smdOf : Shape → Option SMD
  | .smd s => some s
  | _ => none

structure Board where
  layers : List (ℤ × Layer)
  wires : List Wire
  vias : List Via
  pads : List Pad
  smds : List SMD
  elements : List Element
  polygons : List Polygon
  texts : List Text
  packages : List (String × List Shape)
  bounds : Option (ℚ × ℚ × ℚ × ℚ)
  deriving DecidableEq

def Board.empty : Board :=
  ⟨[], [], [], [], [], [], [], [], [], none⟩

/-- Python dict assignment d[k] = v: overwrite in place, else append.
Insertion order is preserved, as in CPython dicts. -/
def dictInsert {α β : Type} [BEq α] (l : List (α × β)) (k : α) (v : β) :
    List (α × β) :=
  if l.any (fun p => p.1 == k) then
    l.map (fun p => if p.1 == k then (k, v) else p)
  else l ++ [(k, v)]

/-- Python dict d.get(k): first (unique) entry with that key. -/
def dictGet? {α β : Type} [BEq α] (l : List (α × β)) (k : α) : Option β :=
  (l.find? (fun p => p.1 == k)).map Prod.snd

/-! ## Rotation descriptor parsing

EagleParser._parse_rot (lines 406-414) and the identical
BRDViewer._parse_rot (lines 1472-1480): empty string means angle 0;
otherwise the mirror flag is whether the first character is M, the
leading M run is stripped, then the leading R run, the remainder is
converted with float(), and the result is negated when mirrored.
The float conversion is not wrapped in a handler at any call site, so
none here models an uncaught ValueError. -/
def parse_rot (rot_str : String) : Option ℚ :=
  if rot_str = "" then some 0
  else
    let mirror := rot_str.data.head? == some 'M'
    let stripped := lstripChar rot_str.data 'M'
    let rot? := if stripped.isEmpty then some (0 : ℚ)
                else pyFloat? (lstripChar stripped 'R')
    rot?.map (fun r => if mirror then -r else r)

/-- The mirror test used by _compute_bounds (line 435) and
_draw_element_shapes (line 1372): the character M occurring anywhere in
the rot descriptor. -/
def hasMirror (s : String) : Bool :=
  s.data.contains 'M'

/-! ## Shape parsers (EagleParser._add_*_from_xml)

Each is split into a pure converter (the attribute reads and
conversions inside the try block) and an adder that appends to the
Board, mirroring the Python methods that append to self.board and
return the object, or swallow the exception and return None. -/

/-- Attribute reads of _add_wire_from_xml (lines 280-293). -/
def wireFromXml (w_el : Xml) (kind : String) : Option Wire :=
  match pyFloat? (w_el.getD "x1" "0").data, pyFloat? (w_el.getD "y1" "0").data,
        pyFloat? (w_el.getD "x2" "0").data, pyFloat? (w_el.getD "y2" "0").data,
        pyFloat? (w_el.getD "width" "0.1").data, pyInt? (w_el.getD "layer" "0").data with
  | some x1, some y1, some x2, some y2, some width, some layer =>
      some ⟨x1, y1, x2, y2, width, layer, kind, ""⟩
  | _, _, _, _, _, _ => none

def add_wire_from_xml (b : Board) (w_el : Xml) (kind : String) :
    Board × Option Wire :=
  match wireFromXml w_el kind with
  | some w => ({ b with wires := b.wires ++ [w] }, some w)
  | none => (b, none)

/-- Attribute reads of _add_via_from_xml (lines 295-305). The diameter
attribute is converted only when present and non-empty (Python
truthiness of v_el.get with default None). -/
def viaFromXml (v_el : Xml) (net : String) : Option Via :=
  let diameter? :=
    match v_el.get? "diameter" with
    | some d => if d ≠ "" then pyFloat? d.data else some 0
    | none => some 0
  match pyFloat? (v_el.getD "x" "0").data, pyFloat? (v_el.getD "y" "0").data,
        pyFloat? (v_el.getD "drill" "0").data, diameter? with
  | some x, some y, some drill, some diameter =>
      some ⟨x, y, drill, diameter, v_el.getD "extent" "", net⟩
  | _, _, _, _ => none

def add_via_from_xml (b : Board) (v_el : Xml) (net : String) : Board :=
  match viaFromXml v_el net with
  | some v => { b with vias := b.vias ++ [v] }
  | none => b

/-- Attribute reads of _add_pad_from_xml (lines 307-325). Note the rot
conversion float(rot_str.lstrip(R).lstrip(M)): R is stripped before M,
so a descriptor with a leading mirror marker reaches float() with the
marker still in front and the conversion fails. -/
def padFromXml (p_el : Xml) : Option Pad :=
  let rot_str := p_el.getD "rot" "R0"
  match pyFloat? (p_el.getD "x" "0").data, pyFloat? (p_el.getD "y" "0").data,
        pyFloat? (p_el.getD "drill" "0").data,
        pyFloat? (p_el.getD "diameter" "0").data,
        pyInt? (p_el.getD "layer" "0").data,
        pyFloat? (lstripChar (lstripChar rot_str.data 'R') 'M') with
  | some x, some y, some drill, some diameter, some layer, some rot =>
      let shape := p_el.getD "shape" "round"
      let dx := if shape ≠ "round" then diameter else 0
      let dy := if shape ≠ "round" then diameter else 0
      some ⟨p_el.getD "name" "", x, y, drill, diameter, dx, dy, shape, layer, rot⟩
  | _, _, _, _, _, _ => none

def add_pad_from_xml (b : Board) (p_el : Xml) : Board × Option Pad :=
  match padFromXml p_el with
  | some p => ({ b with pads := b.pads ++ [p] }, some p)
  | none => (b, none)

/-- Attribute reads of _add_smd_from_xml (lines 327-343), with the same
rot conversion order as pads. -/
def smdFromXml (s_el : Xml) : Option SMD :=
  let rot_str := s_el.getD "rot" "R0"
  match pyFloat? (s_el.getD "x" "0").data, pyFloat? (s_el.getD "y" "0").data,
        pyFloat? (s_el.getD "dx" "0").data, pyFloat? (s_el.getD "dy" "0").data,
        pyInt? (s_el.getD "layer" "0").data,
        pyFloat? (s_el.getD "roundness" "0").data,
        pyFloat? (lstripChar (lstripChar rot_str.data 'R') 'M') with
  | some x, some y, some dx, some dy, some layer, some roundness, some rot =>
      some ⟨s_el.getD "name" "", x, y, dx, dy, layer, roundness, rot⟩
  | _, _, _, _, _, _, _ => none

def add_smd_from_xml (b : Board) (s_el : Xml) : Board × Option SMD :=
  match smdFromXml s_el with
  | some s => ({ b with smds := b.smds ++ [s] }, some s)
  | none => (b, none)

/-- Attribute reads of _add_circle_from_xml (lines 345-355); circles are
returned but never appended to a Board list. -/
def circleFromXml (c_el : Xml) : Option Circle :=
  match pyFloat? (c_el.getD "x" "0").data, pyFloat? (c_el.getD "y" "0").data,
        pyFloat? (c_el.getD "radius" "0").data,
        pyFloat? (c_el.getD "width" "0.1").data,
        pyInt? (c_el.getD "layer" "0").data with
  | some x, some y, some radius, some width, some layer =>
      some ⟨x, y, radius, width, layer⟩
  | _, _, _, _, _ => none

/-- Attribute reads of _add_rect_from_xml (lines 357-369), with the same
rot conversion order as pads; rectangles are returned but never appended
to a Board list. -/
def rectFromXml (r_el : Xml) : Option Rect :=
  let rot_str := r_el.getD "rot" "R0"
  match pyFloat? (r_el.getD "x1" "0").data, pyFloat? (r_el.getD "y1" "0").data,
        pyFloat? (r_el.getD "x2" "0").data, pyFloat? (r_el.getD "y2" "0").data,
        pyInt? (r_el.getD "layer" "0").data,
        pyFloat? (lstripChar (lstripChar rot_str.data 'R') 'M') with
  | some x1, some y1, some x2, some y2, some layer, some rot =>
      some ⟨x1, y1, x2, y2, layer, rot⟩
  | _, _, _, _, _, _ => none

/-- Vertex loop of _add_polygon_from_xml (lines 376-379): any failing
vertex conversion aborts the whole polygon. -/
def vertsFromXml : List Xml → Option (List (ℚ × ℚ))
  | [] => some []
  | v :: rest =>
    match pyFloat? (v.getD "x" "0").data, pyFloat? (v.getD "y" "0").data with
    | some vx, some vy => (vertsFromXml rest).map (fun t => (vx, vy) :: t)
    | _, _ => none

/-- Attribute reads and classification of _add_polygon_from_xml
(lines 371-391): a polygon needs more than 2 vertices; is_outline is
layer equality with the reserved outline layer 20; fill is a non-empty
net and not an outline. -/
def polygonFromXml (p_el : Xml) (net : String) : Option Polygon :=
  match pyInt? (p_el.getD "layer" "0").data,
        pyFloat? (p_el.getD "width" "0.1").data with
  | some layer, some width =>
    match vertsFromXml (p_el.findall "vertex") with
    | some verts =>
      if verts.length > 2 then
        let is_outline := layer == 20
        let fill := (net != "") && !is_outline
        some ⟨verts, layer, width, net, fill, is_outline⟩
      else none
    | none => none
  | _, _ => none

/-- Board effect of _add_polygon_from_xml: an in-package polygon is only
returned, otherwise it is appended to board.polygons. -/
def add_polygon_from_xml (b : Board) (p_el : Xml) (net : String)
    (in_package : Bool) : Board × Option Polygon :=
  match polygonFromXml p_el net with
  | some p =>
      (if in_package then b else { b with polygons := b.polygons ++ [p] }, some p)
  | none => (b, none)

/-- Attribute reads of _add_text_from_xml (lines 393-404), with the same
rot conversion order as pads. -/
def textFromXml (t_el : Xml) : Option Text :=
  let rot_str := t_el.getD "rot" "R0"
  match pyFloat? (t_el.getD "x" "0").data, pyFloat? (t_el.getD "y" "0").data,
        pyInt? (t_el.getD "layer" "0").data,
        pyFloat? (t_el.getD "size" "1.27").data,
        pyFloat? (lstripChar (lstripChar rot_str.data 'R') 'M') with
  | some x, some y, some layer, some size, some rot =>
      some ⟨x, y, t_el.textOf, layer, size, rot⟩
  | _, _, _, _, _ => none

def add_text_from_xml (b : Board) (t_el : Xml) : Board :=
  match textFromXml t_el with
  | some t => { b with texts := b.texts ++ [t] }
  | none => b

/-- Attribute reads of the element loop in _parse_elements
(lines 248-263); the rot descriptor is stored as the raw string. -/
def elementFromXml (e_el : Xml) : Option Element :=
  match pyFloat? (e_el.getD "x" "0").data, pyFloat? (e_el.getD "y" "0").data with
  | some x, some y =>
      some ⟨e_el.getD "name" "", e_el.getD "value" "", e_el.getD "library" "",
            e_el.getD "package" "", x, y, e_el.getD "rot" ""⟩
  | _, _ => none

/-- Attribute reads of the layer loop in _parse_layers (lines 181-194). -/
def layerFromXml (l_el : Xml) : Option (ℤ × Layer) :=
  match pyInt? (l_el.getD "number" "0").data with
  | some num =>
    let name := l_el.getD "name" ("L" ++ toString num)
    match pyInt? (l_el.getD "color" "7").data with
    | some color =>
        some (num, ⟨num, name, color, l_el.getD "visible" "yes" == "yes",
                    l_el.getD "active" "yes" == "yes"⟩)
    | none => none
  | none => none

/-! ## Section parsers of EagleParser.parse -/

/-- _parse_layers (lines 181-194): insert each well-formed layer by
number, overwriting duplicates; a conversion failure skips that layer. -/
def parse_layers (b : Board) (drawing : Xml) : Board :=
  match drawing.find? "layers" with
  | none => b
  | some layers =>
      (layers.findall "layer").foldl
        (fun bb l_el =>
          match layerFromXml l_el with
          | some (num, l) => { bb with layers := dictInsert bb.layers num l }
          | none => bb) b

/-- Loop body for package wires in _parse_libraries (lines 207-210):
add to the board, collect on success. -/
def pkgWireStep (acc : Board × List Shape) (el : Xml) : Board × List Shape :=
  match add_wire_from_xml acc.1 el "package" with
  | (b2, some w) => (b2, acc.2 ++ [Shape.wire w])
  | (b2, none) => (b2, acc.2)

/-- Loop body for package pads (lines 211-214). -/
def pkgPadStep (acc : Board × List Shape) (el : Xml) : Board × List Shape :=
  match add_pad_from_xml acc.1 el with
  | (b2, some p) => (b2, acc.2 ++ [Shape.pad p])
  | (b2, none) => (b2, acc.2)

/-- Loop body for package smds (lines 215-218). -/
def pkgSmdStep (acc : Board × List Shape) (el : Xml) : Board × List Shape :=
  match add_smd_from_xml acc.1 el with
  | (b2, some s) => (b2, acc.2 ++ [Shape.smd s])
  | (b2, none) => (b2, acc.2)

/-- Loop body for package circles (lines 219-222): collected only, the
board is untouched. -/
def pkgCircleStep (acc : Board × List Shape) (el : Xml) : Board × List Shape :=
  match circleFromXml el with
  | some c => (acc.1, acc.2 ++ [Shape.circle c])
  | none => acc

/-- Loop body for package rectangles (lines 223-226): collected only. -/
def pkgRectStep (acc : Board × List Shape) (el : Xml) : Board × List Shape :=
  match rectFromXml el with
  | some r => (acc.1, acc.2 ++ [Shape.rect r])
  | none => acc

/-- Loop body for package polygons (lines 227-230): in_package is true,
so the board is untouched. -/
def pkgPolyStep (acc : Board × List Shape) (el : Xml) : Board × List Shape :=
  match add_polygon_from_xml acc.1 el "" true with
  | (b2, some p) => (b2, acc.2 ++ [Shape.poly p])
  | (b2, none) => (b2, acc.2)

/-- The shape-collection loops of one package in _parse_libraries
(lines 204-231): wires, pads and smds go through the board-appending
adders and are also collected; circles, rectangles and polygons are only
collected. Returns the board after the adders and the collected shape
list. -/
def parse_package_core (b : Board) (pkg : Xml) : Board × List Shape :=
  let s1 := (pkg.findall "wire").foldl pkgWireStep (b, [])
  let s2 := (pkg.findall "pad").foldl pkgPadStep s1
  let s3 := (pkg.findall "smd").foldl pkgSmdStep s2
  let s4 := (pkg.findall "circle").foldl pkgCircleStep s3
  let s5 := (pkg.findall "rectangle").foldl pkgRectStep s4
  (pkg.findall "polygon").foldl pkgPolyStep s5

/-- One package of _parse_libraries: collect shapes, then
self.board.packages[pkg_name] = shapes. -/
def parse_package (b : Board) (pkg : Xml) : Board :=
  let bs := parse_package_core b pkg
  { bs.1 with packages := dictInsert bs.1.packages (pkg.getD "name" "") bs.2 }

/-- _parse_libraries (lines 196-231). -/
def parse_libraries (b : Board) (brd : Xml) : Board :=
  match brd.find? "libraries" with
  | none => b
  | some libraries =>
      (libraries.findall "library").foldl
        (fun bb lib =>
          match lib.find? "packages" with
          | none => bb
          | some packages =>
              (packages.findall "package").foldl parse_package bb) b

/-- _parse_plain (lines 233-246). -/
def parse_plain (b : Board) (brd : Xml) : Board :=
  match brd.find? "plain" with
  | none => b
  | some plain =>
      let b := (plain.findall "wire").foldl
        (fun bb el => (add_wire_from_xml bb el "plain").1) b
      let b := (plain.findall "pad").foldl
        (fun bb el => (add_pad_from_xml bb el).1) b
      let b := (plain.findall "smd").foldl
        (fun bb el => (add_smd_from_xml bb el).1) b
      let b := (plain.findall "polygon").foldl
        (fun bb el => (add_polygon_from_xml bb el "" false).1) b
      (plain.findall "text").foldl add_text_from_xml b

/-- _parse_elements (lines 248-263). -/
def parse_elements (b : Board) (brd : Xml) : Board :=
  match brd.find? "elements" with
  | none => b
  | some elements =>
      (elements.findall "element").foldl
        (fun bb el =>
          match elementFromXml el with
          | some e => { bb with elements := bb.elements ++ [e] }
          | none => bb) b

/-- One signal of _parse_signals (lines 269-278): its wires are added
with kind signal and then have their net set in place (modelled by
appending the wire with the net already assigned, since the mutated
object is the one stored in board.wires); vias and polygons carry the
net directly. -/
def parse_signal (b : Board) (s_el : Xml) : Board :=
  let name := s_el.getD "name" ""
  let b := (s_el.findall "wire").foldl
    (fun bb el =>
      match wireFromXml el "signal" with
      | some w => { bb with wires := bb.wires ++ [{ w with net := name }] }
      | none => bb) b
  let b := (s_el.findall "via").foldl
    (fun bb el => add_via_from_xml bb el name) b
  (s_el.findall "polygon").foldl
    (fun bb el => (add_polygon_from_xml bb el name false).1) b

/-- _parse_signals (lines 265-278). -/
def parse_signals (b : Board) (brd : Xml) : Board :=
  match brd.find? "signals" with
  | none => b
  | some signals => (signals.findall "signal").foldl parse_signal b

/-! ## Affine instancing transforms

The identical per-point computation of _compute_bounds (lines 437-486)
and _draw_element_shapes (lines 1373-1461): mirror negates the local x
only, then the point is rotated by the cosine and sine of the angle
math.radians(_parse_rot(e.rot)) and translated by the element
position. -/

/-- Rotation by the cosine and sine values c and s, then translation by
the element position: (ex + (x * c - y * s), ey + (x * s + y * c)). -/
def rotTrans (c s ex ey x y : ℚ) : ℚ × ℚ :=
  (ex + (x * c - y * s), ey + (x * s + y * c))

/-- Per-point instancing: local x negated when mirrored, y unchanged,
then rotation and translation. -/
def instPoint (mirror : Bool) (c s ex ey x y : ℚ) : ℚ × ℚ :=
  rotTrans c s ex ey (if mirror then -x else x) y

/-- BRDViewer._flip_layer (lines 1482-1489). -/
def flip_layer (layer : ℤ) : ℤ :=
  if layer = 1 then 16 else if layer = 16 then 1
  else if layer = 21 then 22 else if layer = 22 then 21
  else if layer = 25 then 26 else if layer = 26 then 25
  else if layer = 29 then 30 else if layer = 30 then 29
  else layer

/-- The shape_rot computation of _draw_element_shapes (lines 1417 and
1461): shape.rot plus the parsed placement angle, negated again when
mirrored. q is the value of _parse_rot(e.rot). -/
def inst_shape_rot (shape_rot : ℚ) (mirror : Bool) (q : ℚ) : ℚ :=
  shape_rot + (if mirror then -q else q)

/-- The Pad branch of _draw_element_shapes (lines 1454-1467): center
instanced, layer flipped when mirrored, rot updated via inst_shape_rot. -/
def transform_pad (c s q : ℚ) (mirror : Bool) (ex ey : ℚ) (p : Pad) : Pad :=
  let pt := instPoint mirror c s ex ey p.x p.y
  { p with x := pt.1, y := pt.2,
           layer := if mirror then flip_layer p.layer else p.layer,
           rot := inst_shape_rot p.rot mirror q }

/-- The SMD branch of _draw_element_shapes (lines 1454-1463, 1468-1470). -/
def transform_smd (c s q : ℚ) (mirror : Bool) (ex ey : ℚ) (sm : SMD) : SMD :=
  let pt := instPoint mirror c s ex ey sm.x sm.y
  { sm with x := pt.1, y := pt.2,
            layer := if mirror then flip_layer sm.layer else sm.layer,
            rot := inst_shape_rot sm.rot mirror q }

/-- The Rect branch of _draw_element_shapes (lines 1402-1439): the
corner points actually handed to the canvas. The branch mirrors the two
defining x coordinates, forms the axis-aligned corner grid, takes each
corner RELATIVE TO THE RECT CENTER (cx, cy), rotates it, and translates
by the ELEMENT position only; the rotated absolute center abs_cx, abs_cy
computed at lines 1413-1416 is never used. -/
def draw_rect_points (c s : ℚ) (mirror : Bool) (ex ey : ℚ) (r : Rect) :
    List (ℚ × ℚ) :=
  let x1 := if mirror then -r.x1 else r.x1
  let x2 := if mirror then -r.x2 else r.x2
  let xmin := min x1 x2
  let xmax := max x1 x2
  let ymin := min r.y1 r.y2
  let ymax := max r.y1 r.y2
  let cx := (xmin + xmax) / 2
  let cy := (ymin + ymax) / 2
  [(xmin - cx, ymin - cy), (xmin - cx, ymax - cy),
   (xmax - cx, ymin - cy), (xmax - cx, ymax - cy)].map
    (fun pr => (ex + (pr.1 * c - pr.2 * s), ey + (pr.1 * s + pr.2 * c)))

/-! ## Bounds aggregator (EagleParser._compute_bounds, lines 416-494) -/

/-- The coordinates contributed to the bounds scan by one package shape
under one placement (lines 436-486): wire endpoints, pad/smd/circle
centers and polygon vertices through instPoint; rectangle corners are
the axis-aligned grid of the mirrored defining corners, rotated and
translated. -/
def boundsShapePoints (mirror : Bool) (c s ex ey : ℚ) : Shape → List (ℚ × ℚ)
  | .wire w =>
      [instPoint mirror c s ex ey w.x1 w.y1, instPoint mirror c s ex ey w.x2 w.y2]
  | .pad p => [instPoint mirror c s ex ey p.x p.y]
  | .smd sm => [instPoint mirror c s ex ey sm.x sm.y]
  | .circle cc => [instPoint mirror c s ex ey cc.x cc.y]
  | .rect r =>
      let x1 := if mirror then -r.x1 else r.x1
      let x2 := if mirror then -r.x2 else r.x2
      let xmin := min x1 x2
      let xmax := max x1 x2
      let ymin := min r.y1 r.y2
      let ymax := max r.y1 r.y2
      [(xmin, ymin), (xmin, ymax), (xmax, ymin), (xmax, ymax)].map
        (fun pr => rotTrans c s ex ey pr.1 pr.2)
  | .poly p => p.vertices.map (fun v => instPoint mirror c s ex ey v.1 v.2)

/-- The element loop of _compute_bounds (lines 430-486): each element
contributes its position and its instanced package shape coordinates;
_parse_rot runs outside any exception handler, so a rot descriptor that
fails numeric conversion aborts the whole computation. -/
def boundsElements (cosD sinD : ℚ → ℚ) (packages : List (String × List Shape)) :
    List Element → Except String (List ℚ × List ℚ)
  | [] => .ok ([], [])
  | e :: rest =>
    match parse_rot e.rot with
    | none => .error "ValueError: could not convert rot to float"
    | some q =>
      let mirror := hasMirror e.rot
      let pts := (((dictGet? packages e.package).getD []).map
        (boundsShapePoints mirror (cosD q) (sinD q) e.x e.y)).flatten
      match boundsElements cosD sinD packages rest with
      | .error msg => .error msg
      | .ok (xs, ys) =>
          .ok (e.x :: (pts.map Prod.fst ++ xs), e.y :: (pts.map Prod.snd ++ ys))

/-- The full coordinate scan of _compute_bounds: raw wire endpoints,
via/pad/smd centers, element positions with instanced shapes, raw
polygon vertices. -/
def compute_bounds_coords (cosD sinD : ℚ → ℚ) (b : Board) :
    Except String (List ℚ × List ℚ) :=
  match boundsElements cosD sinD b.packages b.elements with
  | .error msg => .error msg
  | .ok (exs, eys) =>
      .ok ((b.wires.flatMap (fun w => [w.x1, w.x2]) ++ b.vias.map Via.x ++
              b.pads.map Pad.x ++ b.smds.map SMD.x) ++ exs ++
             b.polygons.flatMap (fun p => p.vertices.map Prod.fst),
           (b.wires.flatMap (fun w => [w.y1, w.y2]) ++ b.vias.map Via.y ++
              b.pads.map Pad.y ++ b.smds.map SMD.y) ++ eys ++
             b.polygons.flatMap (fun p => p.vertices.map Prod.snd))

/-- _compute_bounds result: componentwise minima and maxima of the scan
when any coordinate was observed, else the fixed default rectangle. -/
def compute_bounds (cosD sinD : ℚ → ℚ) (b : Board) :
    Except String (ℚ × ℚ × ℚ × ℚ) :=
  match compute_bounds_coords cosD sinD b with
  | .error msg => .error msg
  | .ok (xs, ys) =>
    match xs, ys with
    | x :: xs2, y :: ys2 =>
        .ok (xs2.foldl min x, ys2.foldl min y, xs2.foldl max x, ys2.foldl max y)
    | _, _ => .ok (0, 0, 100, 100)

/-! ## Top-level parse (EagleParser.parse, lines 157-179) -/

/-- The Board built by the five section parses, in source order. -/
def build_board (drawing brd : Xml) : Board :=
  let b := parse_layers Board.empty drawing
  let b := parse_libraries b brd
  let b := parse_plain b brd
  let b := parse_elements b brd
  parse_signals b brd

/-- EagleParser.parse: none models an unreadable or ill-formed document
(ET.ParseError or open failure); a missing drawing or board container is
fatal; otherwise the board is built and bounds are computed (which can
itself raise through _parse_rot). -/
def eagle_parse (cosD sinD : ℚ → ℚ) (doc : Option Xml) : Except String Board :=
  match doc with
  | none => .error "XML parse error"
  | some root =>
    match root.find? "drawing" with
    | none => .error "Not an EAGLE XML file (missing drawing root)"
    | some drawing =>
      match drawing.find? "board" with
      | none => .error "Not a board file (missing board element)"
      | some brd =>
        let b := build_board drawing brd
        match compute_bounds cosD sinD b with
        | .error msg => .error msg
        | .ok bd => .ok { b with bounds := some bd }

/-! ## Net index (BRDViewer._populate_nets, lines 1024-1039) -/

/-- The set of net names collected by _populate_nets: non-empty net
fields of wires, vias and polygons (Python set membership modelled by
dedup on the collection order). -/
def distinct_nets (b : Board) : List String :=
  ((b.wires.map Wire.net ++ b.vias.map Via.net ++ b.polygons.map Polygon.net).filter
    (fun n => n != "")).dedup

/-! ## Concrete values used by witnesses and counterexamples -/

/-- A pad at local (0, 1) with rotation 0, used under a mirrored
placement. -/
def exMirrorPad : Pad := ⟨"1", 0, 1, 0, 0, 0, 0, "round", 1, 0⟩

def exSmd : SMD := ⟨"S1", 2, 3, 1, 1, 1, 0, 0⟩

/-- A placement at the origin with descriptor MR90. -/
def exMirrorElement : Element := ⟨"U1", "", "lib", "PKG", 0, 0, "MR90"⟩

def exMirrorBoard : Board :=
  { Board.empty with elements := [exMirrorElement],
                     packages := [("PKG", [Shape.pad exMirrorPad])] }

/-- A pad declaration whose rot attribute carries a leading mirror
marker. -/
def exMirrorPadXml : Xml :=
  .mk "pad" [("name", "P1"), ("x", "0"), ("y", "0"), ("rot", "MR90")] "" []

/-- A package rectangle whose center (2, 3/2) is away from the package
origin. -/
def exRect : Rect := ⟨1, 1, 3, 2, 21, 0⟩

def exPolyXml : Xml :=
  .mk "polygon" [("layer", "1"), ("width", "0.1")] ""
    [.mk "vertex" [("x", "0"), ("y", "0")] "" [],
     .mk "vertex" [("x", "1"), ("y", "0")] "" [],
     .mk "vertex" [("x", "0"), ("y", "1")] "" []]

def exPoly : Polygon := ⟨[(0, 0), (1, 0), (0, 1)], 1, 1/10, "GND", true, false⟩

/-- A plain wire from (1, 2) to (3, 4), giving a one-shape board for the
bounds witness. -/
def exBoundsWire : Wire := ⟨1, 2, 3, 4, 1/10, 1, "plain", ""⟩

def exBoundsBoard : Board := { Board.empty with wires := [exBoundsWire] }

/-- A signal wire on net GND, giving a one-net board for the net index
witness. -/
def exNetWire : Wire := ⟨0, 0, 1, 1, 1/10, 1, "signal", "GND"⟩

def exNetBoard : Board := { Board.empty with wires := [exNetWire] }

/-! ## Helper lemmas about foldl min and max (Python min(xs), max(xs)) -/

theorem foldl_min_le_init (l : List ℚ) (a : ℚ) : l.foldl min a ≤ a := by
  induction l generalizing a with
  | nil => simp
  | cons b t ih =>
      simp only [List.foldl_cons]
      exact le_trans (ih (min a b)) (min_le_left a b)

theorem foldl_min_mem (l : List ℚ) (a : ℚ) : l.foldl min a ∈ a :: l := by
  induction l generalizing a with
  | nil => simp
  | cons b t ih =>
      simp only [List.foldl_cons]
      rcases List.mem_cons.mp (ih (min a b)) with h | h
      · rcases min_choice a b with h2 | h2
        · exact List.mem_cons.mpr (Or.inl (h.trans h2))
        · exact List.mem_cons.mpr (Or.inr (List.mem_cons.mpr (Or.inl (h.trans h2))))
      · exact List.mem_cons.mpr (Or.inr (List.mem_cons.mpr (Or.inr h)))

theorem foldl_min_le (l : List ℚ) (a x : ℚ) (hx : x ∈ a :: l) :
    l.foldl min a ≤ x := by
  induction l generalizing a with
  | nil =>
      rcases List.mem_cons.mp hx with h | h
      · subst h; simp
      · simp at h
  | cons b t ih =>
      simp only [List.foldl_cons]
      rcases List.mem_cons.mp hx with h | h
      · subst h
        exact le_trans (foldl_min_le_init t (min x b)) (min_le_left x b)
      · rcases List.mem_cons.mp h with h1 | h1
        · subst h1
          exact le_trans (foldl_min_le_init t (min a x)) (min_le_right a x)
        · exact ih (min a b) (List.mem_cons.mpr (Or.inr h1))

theorem le_foldl_max_init (l : List ℚ) (a : ℚ) : a ≤ l.foldl max a := by
  induction l generalizing a with
  | nil => simp
  | cons b t ih =>
      simp only [List.foldl_cons]
      exact le_trans (le_max_left a b) (ih (max a b))

theorem foldl_max_mem (l : List ℚ) (a : ℚ) : l.foldl max a ∈ a :: l := by
  induction l generalizing a with
  | nil => simp
  | cons b t ih =>
      simp only [List.foldl_cons]
      rcases List.mem_cons.mp (ih (max a b)) with h | h
      · rcases max_choice a b with h2 | h2
        · exact List.mem_cons.mpr (Or.inl (h.trans h2))
        · exact List.mem_cons.mpr (Or.inr (List.mem_cons.mpr (Or.inl (h.trans h2))))
      · exact List.mem_cons.mpr (Or.inr (List.mem_cons.mpr (Or.inr h)))

theorem le_foldl_max (l : List ℚ) (a x : ℚ) (hx : x ∈ a :: l) :
    x ≤ l.foldl max a := by
  induction l generalizing a with
  | nil =>
      rcases List.mem_cons.mp hx with h | h
      · subst h; simp
      · simp at h
  | cons b t ih =>
      simp only [List.foldl_cons]
      rcases List.mem_cons.mp hx with h | h
      · subst h
        exact le_trans (le_max_left x b) (le_foldl_max_init t (max x b))
      · rcases List.mem_cons.mp h with h1 | h1
        · subst h1
          exact le_trans (le_max_right a x) (le_foldl_max_init t (max a x))
        · exact ih (max a b) (List.mem_cons.mpr (Or.inr h1))

/-- Success test for the error monad modelling uncaught Python
exceptions. -/
def isOkExcept {ε α : Type} : Except ε α → Bool
  | .ok _ => true
  | .error _ => false

/-- A board document whose only element carries the malformed rot
descriptor X. -/
def exBadElementXml : Xml :=
  .mk "element" [("name", "R1"), ("x", "0"), ("y", "0"), ("rot", "X")] "" []

def exBadBrd : Xml := .mk "board" [] "" [.mk "elements" [] "" [exBadElementXml]]

def exBadDrawing : Xml := .mk "drawing" [] "" [exBadBrd]

def exBadRoot : Xml := .mk "eagle" [] "" [exBadDrawing]

def exGoodWireXml : Xml :=
  .mk "wire" [("x1", "0"), ("y1", "0"), ("x2", "1"), ("y2", "1"),
              ("width", "0.1"), ("layer", "1")] "" []

/-- A wire declaration with an unparsable coordinate. -/
def exBadWireXml : Xml := .mk "wire" [("x1", "abc")] "" []

/-- The element scan of the bounds pass succeeds exactly when every
stored element rot descriptor parses. -/
theorem boundsElements_ok_iff (cosD sinD : ℚ → ℚ)
    (pkgs : List (String × List Shape)) :
    ∀ es : List Element,
      isOkExcept (boundsElements cosD sinD pkgs es) = true ↔
        ∀ e ∈ es, (parse_rot e.rot).isSome = true := by
  intro es
  induction es with
  | nil => simp [boundsElements, isOkExcept]
  | cons e rest ih =>
      rw [List.forall_mem_cons]
      cases hp : parse_rot e.rot with
      | none => simp [boundsElements, hp, isOkExcept]
      | some q =>
          cases hr : boundsElements cosD sinD pkgs rest with
          | error msg =>
              have ihn : ¬ ∀ e2 ∈ rest, (parse_rot e2.rot).isSome = true := by
                intro hh
                have h0 := ih.mpr hh
                rw [hr] at h0
                simp [isOkExcept] at h0
              simp only [boundsElements, hp, hr, isOkExcept]
              constructor
              · intro h; exact absurd h (by simp)
              · rintro ⟨h1, h2⟩; exact absurd h2 ihn
          | ok p =>
              have ihy : ∀ e2 ∈ rest, (parse_rot e2.rot).isSome = true := by
                apply ih.mp
                rw [hr]
                rfl
              obtain ⟨xs, ys⟩ := p
              simp only [boundsElements, hp, hr, isOkExcept]
              constructor
              · intro _; exact ⟨rfl, ihy⟩
              · intro _; trivial

theorem compute_bounds_coords_isOk (cosD sinD : ℚ → ℚ) (b : Board) :
    isOkExcept (compute_bounds_coords cosD sinD b)
      = isOkExcept (boundsElements cosD sinD b.packages b.elements) := by
  unfold compute_bounds_coords
  cases hr : boundsElements cosD sinD b.packages b.elements with
  | error msg => rfl
  | ok p =>
      obtain ⟨xs, ys⟩ := p
      rfl

theorem compute_bounds_isOk (cosD sinD : ℚ → ℚ) (b : Board) :
    isOkExcept (compute_bounds cosD sinD b)
      = isOkExcept (compute_bounds_coords cosD sinD b) := by
  unfold compute_bounds
  cases hc : compute_bounds_coords cosD sinD b with
  | error msg => rfl
  | ok p =>
      obtain ⟨xs, ys⟩ := p
      cases xs with
      | nil => rfl
      | cons x xs2 =>
          cases ys with
          | nil => rfl
          | cons y ys2 => rfl

/-- The bounds computation succeeds exactly when every stored element
rot descriptor parses (the scan never fails anywhere else, and both the
empty and the non-empty scan produce a result). -/
theorem compute_bounds_ok_iff (cosD sinD : ℚ → ℚ) (b : Board) :
    isOkExcept (compute_bounds cosD sinD b) = true ↔
      ∀ e ∈ b.elements, (parse_rot e.rot).isSome = true := by
  rw [compute_bounds_isOk, compute_bounds_coords_isOk,
    boundsElements_ok_iff cosD sinD b.packages b.elements]

/-! ## Claim theorems -/

/-- C1 counterexample: under the placement MR90 at the origin, the pad
at local (0, 1) is instanced by the code at (1, 0) (the parsed angle is
the negated degree value -90), while position + R(90 degrees) applied to
the mirrored point (-0, 1) is (-1, 0). The trig values used are the
exact cosine and sine of plus and minus 90 degrees. -/
theorem c1_counterexample :
    parse_rot "MR90" = some (-90) ∧
    instPoint true (cosDeg (-90)) (sinDeg (-90)) 0 0 0 1 = (1, 0) ∧
    ((0 : ℚ) + ((-0) * cosDeg 90 - 1 * sinDeg 90),
     (0 : ℚ) + ((-0) * sinDeg 90 + 1 * cosDeg 90)) = (-1, 0) ∧
    compute_bounds cosDeg sinDeg exMirrorBoard = .ok (0, 0, 1, 0) ∧
    decide (((1 : ℚ), (0 : ℚ)) = ((-1 : ℚ), (0 : ℚ))) = false := by
  refine ⟨by with_unfolding_all decide, by with_unfolding_all decide,
    by with_unfolding_all decide, by with_unfolding_all rfl,
    by with_unfolding_all decide⟩

/-- C1 (amended): for a placement whose descriptor carries the mirror
marker, instancing negates the local x only, rotates by the PARSED
angle, which is the negation of the degree value written in the
descriptor, and translates by the position: each instanced point equals
position + R(-d) applied to (-x, y), where d is the descriptor degree
value, so the rotation matrix entries are cos d and -(sin d). -/
theorem c1_amended_mirror_instancing (cosD sinD : ℚ → ℚ) (rs : String)
    (d px py x y : ℚ) (hne : rs ≠ "") (hM : rs.data.head? = some 'M')
    (hnum : pyFloat? (lstripChar (lstripChar rs.data 'M') 'R') = some d)
    (hc : cosD (-d) = cosD d) (hs : sinD (-d) = -sinD d) :
    parse_rot rs = some (-d) ∧
    instPoint true (cosD (-d)) (sinD (-d)) px py x y
      = (px + ((-x) * cosD d - y * (-sinD d)),
         py + ((-x) * (-sinD d) + y * cosD d)) := by
  constructor
  · have hstr : (lstripChar rs.data 'M').isEmpty = false := by
      cases h : lstripChar rs.data 'M' with
      | nil =>
          rw [h] at hnum
          simp [pyFloat?, pyFloatUnsigned, lstripChar] at hnum
      | cons a t => rfl
    unfold parse_rot
    rw [if_neg hne, hM]
    simp [hstr, hnum]
  · simp only [instPoint, rotTrans, hc, hs, if_true, Prod.mk.injEq]

/-- C1 witness: the amended statement instantiated at the descriptor
MR90 and the local point (0, 1) under a placement at (0, 0). -/
theorem c1_witness :
    parse_rot "MR90" = some (-90) ∧
    instPoint true (cosDeg (-90)) (sinDeg (-90)) 0 0 0 1
      = ((0 : ℚ) + ((-0) * cosDeg 90 - 1 * (-sinDeg 90)),
         (0 : ℚ) + ((-0) * (-sinDeg 90) + 1 * cosDeg 90)) :=
  c1_amended_mirror_instancing cosDeg sinDeg "MR90" 90 0 0 0 1 (by decide)
    (by decide) (by with_unfolding_all decide) (cosDeg_even 90) (sinDeg_odd 90)

/-- C2 counterexample: a pad with rotation 0 in a package placed with
descriptor MR90 (degree value 90) gets instanced rotation 90, not
0 - 90 = -90: the parsed placement angle is -90 and the drawing code
subtracts it, so the two negations cancel. -/
theorem c2_counterexample :
    parse_rot "MR90" = some (-90) ∧
    (transform_pad (cosDeg (-90)) (sinDeg (-90)) (-90) true 0 0 exMirrorPad).rot
      = 90 ∧
    decide ((90 : ℚ) = exMirrorPad.rot - 90) = false := by
  refine ⟨by with_unfolding_all decide, by with_unfolding_all decide,
    by with_unfolding_all decide⟩

/-- C2 (amended): the instanced rotation of a pad or surface-mount pad
equals shape.rot + q when unmirrored and shape.rot - q when mirrored,
where q is the PARSED placement angle returned by _parse_rot; since q is
the descriptor degree value d negated under mirroring, the instanced
rotation equals shape.rot + d in both cases. -/
theorem c2_amended_rotation_update (c s q d : ℚ) (m : Bool) (ex ey : ℚ)
    (p : Pad) (sm : SMD) (hq : q = if m then -d else d) :
    (transform_pad c s q m ex ey p).rot = p.rot + d ∧
    (transform_smd c s q m ex ey sm).rot = sm.rot + d ∧
    (∀ r : ℚ, inst_shape_rot r m q = r + d) := by
  subst hq
  cases m <;> refine ⟨?_, ?_, fun r => ?_⟩ <;>
    simp [transform_pad, transform_smd, inst_shape_rot]

/-- C2 witness: the amended statement instantiated at a mirrored
placement with descriptor degree value 90 (parsed angle -90). -/
theorem c2_witness :
    (transform_pad (cosDeg (-90)) (sinDeg (-90)) (-90) true 5 7 exMirrorPad).rot
      = exMirrorPad.rot + 90 ∧
    (transform_smd (cosDeg (-90)) (sinDeg (-90)) (-90) true 5 7 exSmd).rot
      = exSmd.rot + 90 ∧
    (∀ r : ℚ, inst_shape_rot r true (-90) = r + 90) :=
  c2_amended_rotation_update (cosDeg (-90)) (sinDeg (-90)) (-90) 90 true 5 7
    exMirrorPad exSmd rfl

/-- C3: with the parsed angle -d of a mirrored descriptor of degree
value d (cosine even, sine odd), every instanced point has x equal to
the placement x minus the local x after rotation by d, its y equals the
unmirrored instanced y, and it is the exact reflection of the unmirrored
instanced point across the vertical line through the placement x. -/
theorem c3_mirror_is_reflection (cosD sinD : ℚ → ℚ) (d px py x y : ℚ)
    (hc : cosD (-d) = cosD d) (hs : sinD (-d) = -sinD d) :
    (instPoint true (cosD (-d)) (sinD (-d)) px py x y).1
      = px - (x * cosD d - y * sinD d) ∧
    (instPoint true (cosD (-d)) (sinD (-d)) px py x y).2
      = (instPoint false (cosD d) (sinD d) px py x y).2 ∧
    (instPoint true (cosD (-d)) (sinD (-d)) px py x y).1
      = 2 * px - (instPoint false (cosD d) (sinD d) px py x y).1 := by
  refine ⟨?_, ?_, ?_⟩ <;> simp [instPoint, rotTrans, hc, hs] <;> try ring

/-- C3 witness: the reflection property instantiated at degree value 90,
placement (5, 7) and local point (2, 3), with the exact quarter-turn
trig values. -/
theorem c3_witness :
    (instPoint true (cosDeg (-90)) (sinDeg (-90)) 5 7 2 3).1
      = 5 - (2 * cosDeg 90 - 3 * sinDeg 90) ∧
    (instPoint true (cosDeg (-90)) (sinDeg (-90)) 5 7 2 3).2
      = (instPoint false (cosDeg 90) (sinDeg 90) 5 7 2 3).2 ∧
    (instPoint true (cosDeg (-90)) (sinDeg (-90)) 5 7 2 3).1
      = 2 * 5 - (instPoint false (cosDeg 90) (sinDeg 90) 5 7 2 3).1 :=
  c3_mirror_is_reflection cosDeg sinDeg 90 5 7 2 3 (cosDeg_even 90) (sinDeg_odd 90)

/-- C4 (code bug): the pad parser converts
float(rot_str.lstrip(R).lstrip(M)), stripping R BEFORE M, so the
descriptor MR90 reaches float() as R90 and the conversion fails: the pad
is skipped and the board is unchanged. The element-level _parse_rot in
the same file strips M first and parses the same descriptor fine. -/
theorem c4_mirror_descriptor_pad_skipped :
    pyFloat? (lstripChar (lstripChar "MR90".data 'R') 'M') = none ∧
    add_pad_from_xml Board.empty exMirrorPadXml = (Board.empty, none) ∧
    parse_rot "MR90" = some (-90) := by
  refine ⟨by with_unfolding_all decide, by with_unfolding_all decide,
    by with_unfolding_all decide⟩

/-- C5 (code bug): for the unmirrored, unrotated placement at the
origin, the bounds path instances the package rectangle (1,1)-(3,2) at
its four true corners, but the drawing path hands the canvas the corners
taken relative to the rectangle center and translated by the element
position only (the rotated absolute center computed at lines 1413-1416
is never added back), so the drawn corner set differs from the bounds
corner set. -/
theorem c5_rect_draw_path_off_center :
    parse_rot "" = some 0 ∧
    boundsShapePoints false (cosDeg 0) (sinDeg 0) 0 0 (Shape.rect exRect)
      = [(1, 1), (1, 2), (3, 1), (3, 2)] ∧
    draw_rect_points (cosDeg 0) (sinDeg 0) false 0 0 exRect
      = [(-1, -(1/2)), (-1, 1/2), (1, -(1/2)), (1, 1/2)] ∧
    decide (((1 : ℚ), (1 : ℚ)) ∈
      boundsShapePoints false (cosDeg 0) (sinDeg 0) 0 0 (Shape.rect exRect)) = true ∧
    decide (((1 : ℚ), (1 : ℚ)) ∈
      draw_rect_points (cosDeg 0) (sinDeg 0) false 0 0 exRect) = false := by
  refine ⟨by with_unfolding_all decide, by with_unfolding_all decide,
    by with_unfolding_all decide, by with_unfolding_all decide,
    by with_unfolding_all decide⟩

/-- C8: every polygon produced by _add_polygon_from_xml has is_outline
exactly when its layer is the reserved outline layer 20, and fill
exactly when its net is non-empty and it is not an outline; the stored
net is the net passed in. -/
theorem c8_polygon_classification (p_el : Xml) (net : String) (p : Polygon)
    (h : polygonFromXml p_el net = some p) :
    (p.is_outline = true ↔ p.layer = 20) ∧
    (p.fill = true ↔ (p.net ≠ "" ∧ p.is_outline = false)) ∧
    p.net = net := by
  unfold polygonFromXml at h
  split at h
  case _ layer width hl hw =>
    split at h
    case _ verts hv =>
      split at h
      case isTrue hlen =>
        cases h
        refine ⟨by simp, ?_, rfl⟩
        simp [Bool.and_eq_true, bne_iff_ne, Bool.not_eq_true']
      case isFalse hlen => cases h
    case _ => cases h
  case _ => cases h

/-- C8 witness: a three-vertex polygon on layer 1 with net GND parses
with fill true and is_outline false. -/
theorem c8_witness :
    (exPoly.is_outline = true ↔ exPoly.layer = 20) ∧
    (exPoly.fill = true ↔ (exPoly.net ≠ "" ∧ exPoly.is_outline = false)) ∧
    exPoly.net = "GND" :=
  c8_polygon_classification exPolyXml "GND" exPoly (by with_unfolding_all decide)

/-- C9: membership in the net index is exactly being a non-empty net
field of some wire, via or polygon of the Board, and the empty net name
is never a member. -/
theorem c9_distinct_nets_exact (b : Board) (n : String) :
    (n ∈ distinct_nets b ↔
      n ≠ "" ∧ ((∃ w ∈ b.wires, w.net = n) ∨ (∃ v ∈ b.vias, v.net = n) ∨
                (∃ p ∈ b.polygons, p.net = n))) ∧
    "" ∉ distinct_nets b := by
  constructor
  · rw [distinct_nets, List.mem_dedup, List.mem_filter]
    constructor
    · rintro ⟨hmem, hp⟩
      refine ⟨by simpa [bne_iff_ne] using hp, ?_⟩
      rcases List.mem_append.mp hmem with h | h
      · rcases List.mem_append.mp h with h1 | h1
        · rcases List.mem_map.mp h1 with ⟨w, hw, hwn⟩
          exact Or.inl ⟨w, hw, hwn⟩
        · rcases List.mem_map.mp h1 with ⟨v, hv, hvn⟩
          exact Or.inr (Or.inl ⟨v, hv, hvn⟩)
      · rcases List.mem_map.mp h with ⟨p, hp2, hpn⟩
        exact Or.inr (Or.inr ⟨p, hp2, hpn⟩)
    · rintro ⟨hne, hcase⟩
      refine ⟨?_, by simpa [bne_iff_ne] using hne⟩
      rcases hcase with ⟨w, hw, hwn⟩ | ⟨v, hv, hvn⟩ | ⟨p, hp2, hpn⟩
      · exact List.mem_append.mpr
          (Or.inl (List.mem_append.mpr (Or.inl (List.mem_map.mpr ⟨w, hw, hwn⟩))))
      · exact List.mem_append.mpr
          (Or.inl (List.mem_append.mpr (Or.inr (List.mem_map.mpr ⟨v, hv, hvn⟩))))
      · exact List.mem_append.mpr (Or.inr (List.mem_map.mpr ⟨p, hp2, hpn⟩))
  · intro hmem
    rw [distinct_nets, List.mem_dedup, List.mem_filter] at hmem
    exact absurd hmem.2 (by decide)

/-- C9 witness: the net index characterization instantiated at a board
with one signal wire on net GND. -/
theorem c9_witness :
    ("GND" ∈ distinct_nets exNetBoard ↔
      "GND" ≠ "" ∧ ((∃ w ∈ exNetBoard.wires, w.net = "GND") ∨
        (∃ v ∈ exNetBoard.vias, v.net = "GND") ∨
        (∃ p ∈ exNetBoard.polygons, p.net = "GND"))) ∧
    "" ∉ distinct_nets exNetBoard :=
  c9_distinct_nets_exact exNetBoard "GND"

/-- C7: when the scan succeeds, an empty coordinate scan yields the
fixed default rectangle (0, 0, 100, 100), and a non-empty scan yields
exactly the componentwise minima and maxima: each of the four bounds is
attained by a scanned coordinate and every scanned coordinate lies
inside them. -/
theorem c7_bounds_tight (cosD sinD : ℚ → ℚ) (b : Board) (xs ys : List ℚ)
    (h : compute_bounds_coords cosD sinD b = .ok (xs, ys)) :
    (xs = [] ∨ ys = [] → compute_bounds cosD sinD b = .ok (0, 0, 100, 100)) ∧
    (xs ≠ [] → ys ≠ [] →
      ∃ mnx mny mxx mxy,
        compute_bounds cosD sinD b = .ok (mnx, mny, mxx, mxy) ∧
        mnx ∈ xs ∧ mxx ∈ xs ∧ mny ∈ ys ∧ mxy ∈ ys ∧
        (∀ x ∈ xs, mnx ≤ x ∧ x ≤ mxx) ∧ (∀ y ∈ ys, mny ≤ y ∧ y ≤ mxy)) := by
  constructor
  · intro hor
    unfold compute_bounds
    rw [h]
    rcases hor with he | he
    · subst he; rfl
    · subst he
      cases xs with
      | nil => rfl
      | cons a l => rfl
  · intro hxs hys
    cases xs with
    | nil => exact absurd rfl hxs
    | cons x xs2 =>
      cases ys with
      | nil => exact absurd rfl hys
      | cons y ys2 =>
        refine ⟨xs2.foldl min x, ys2.foldl min y, xs2.foldl max x, ys2.foldl max y,
          ?_, foldl_min_mem xs2 x, foldl_max_mem xs2 x,
          foldl_min_mem ys2 y, foldl_max_mem ys2 y,
          fun z hz => ⟨foldl_min_le xs2 x z hz, le_foldl_max xs2 x z hz⟩,
          fun z hz => ⟨foldl_min_le ys2 y z hz, le_foldl_max ys2 y z hz⟩⟩
        unfold compute_bounds
        rw [h]

/-- C7 witness: the bounds characterization instantiated at a board
holding the single wire (1, 2)-(3, 4), whose scan is ([1, 3], [2, 4]). -/
theorem c7_witness :
    (([1, 3] : List ℚ) = [] ∨ ([2, 4] : List ℚ) = [] →
      compute_bounds cosDeg sinDeg exBoundsBoard = .ok (0, 0, 100, 100)) ∧
    (([1, 3] : List ℚ) ≠ [] → ([2, 4] : List ℚ) ≠ [] →
      ∃ mnx mny mxx mxy,
        compute_bounds cosDeg sinDeg exBoundsBoard = .ok (mnx, mny, mxx, mxy) ∧
        mnx ∈ ([1, 3] : List ℚ) ∧ mxx ∈ ([1, 3] : List ℚ) ∧
        mny ∈ ([2, 4] : List ℚ) ∧ mxy ∈ ([2, 4] : List ℚ) ∧
        (∀ x ∈ ([1, 3] : List ℚ), mnx ≤ x ∧ x ≤ mxx) ∧
        (∀ y ∈ ([2, 4] : List ℚ), mny ≤ y ∧ y ≤ mxy)) :=
  c7_bounds_tight cosDeg sinDeg exBoundsBoard [1, 3] [2, 4]
    (by with_unfolding_all rfl)

/-! ## Helper lemmas for the package collection loops -/

theorem foldl_pkgWireStep (els : List Xml) : ∀ (b : Board) (sh : List Shape),
    els.foldl pkgWireStep (b, sh)
      = ({ b with wires :=
             b.wires ++ els.filterMap (fun el => wireFromXml el "package") },
         sh ++ (els.filterMap (fun el => wireFromXml el "package")).map Shape.wire) := by
  induction els with
  | nil => intro b sh; simp
  | cons el els ih =>
      intro b sh
      simp only [List.foldl_cons, List.filterMap_cons]
      cases hw : wireFromXml el "package" with
      | none =>
          simp only [pkgWireStep, add_wire_from_xml, hw]
          exact ih b sh
      | some w =>
          simp only [pkgWireStep, add_wire_from_xml, hw]
          rw [ih]
          simp

theorem foldl_pkgPadStep (els : List Xml) : ∀ (b : Board) (sh : List Shape),
    els.foldl pkgPadStep (b, sh)
      = ({ b with pads := b.pads ++ els.filterMap padFromXml },
         sh ++ (els.filterMap padFromXml).map Shape.pad) := by
  induction els with
  | nil => intro b sh; simp
  | cons el els ih =>
      intro b sh
      simp only [List.foldl_cons, List.filterMap_cons]
      cases hw : padFromXml el with
      | none =>
          simp only [pkgPadStep, add_pad_from_xml, hw]
          exact ih b sh
      | some w =>
          simp only [pkgPadStep, add_pad_from_xml, hw]
          rw [ih]
          simp

theorem foldl_pkgSmdStep (els : List Xml) : ∀ (b : Board) (sh : List Shape),
    els.foldl pkgSmdStep (b, sh)
      = ({ b with smds := b.smds ++ els.filterMap smdFromXml },
         sh ++ (els.filterMap smdFromXml).map Shape.smd) := by
  induction els with
  | nil => intro b sh; simp
  | cons el els ih =>
      intro b sh
      simp only [List.foldl_cons, List.filterMap_cons]
      cases hw : smdFromXml el with
      | none =>
          simp only [pkgSmdStep, add_smd_from_xml, hw]
          exact ih b sh
      | some w =>
          simp only [pkgSmdStep, add_smd_from_xml, hw]
          rw [ih]
          simp

theorem foldl_pkgCircleStep (els : List Xml) : ∀ (b : Board) (sh : List Shape),
    els.foldl pkgCircleStep (b, sh)
      = (b, sh ++ (els.filterMap circleFromXml).map Shape.circle) := by
  induction els with
  | nil => intro b sh; simp
  | cons el els ih =>
      intro b sh
      simp only [List.foldl_cons, List.filterMap_cons]
      cases hw : circleFromXml el with
      | none =>
          simp only [pkgCircleStep, hw]
          exact ih b sh
      | some w =>
          simp only [pkgCircleStep, hw]
          rw [ih]
          simp

theorem foldl_pkgRectStep (els : List Xml) : ∀ (b : Board) (sh : List Shape),
    els.foldl pkgRectStep (b, sh)
      = (b, sh ++ (els.filterMap rectFromXml).map Shape.rect) := by
  induction els with
  | nil => intro b sh; simp
  | cons el els ih =>
      intro b sh
      simp only [List.foldl_cons, List.filterMap_cons]
      cases hw : rectFromXml el with
      | none =>
          simp only [pkgRectStep, hw]
          exact ih b sh
      | some w =>
          simp only [pkgRectStep, hw]
          rw [ih]
          simp

theorem foldl_pkgPolyStep (els : List Xml) : ∀ (b : Board) (sh : List Shape),
    els.foldl pkgPolyStep (b, sh)
      = (b, sh ++ (els.filterMap (fun el => polygonFromXml el "")).map Shape.poly) := by
  induction els with
  | nil => intro b sh; simp
  | cons el els ih =>
      intro b sh
      simp only [List.foldl_cons, List.filterMap_cons]
      cases hw : polygonFromXml el "" with
      | none =>
          simp only [pkgPolyStep, add_polygon_from_xml, hw]
          exact ih b sh
      | some w =>
          simp only [pkgPolyStep, add_polygon_from_xml, hw, if_true]
          rw [ih]
          simp

/-- Closed form of parse_package_core: the board gains exactly the
parsed package wires, pads and smds on its flat lists, and the collected
shape list is the six parsed groups in source order. -/
theorem parse_package_core_eq (b : Board) (pkg : Xml) :
    parse_package_core b pkg
      = ({ b with
             wires := b.wires ++
               (pkg.findall "wire").filterMap (fun el => wireFromXml el "package"),
             pads := b.pads ++ (pkg.findall "pad").filterMap padFromXml,
             smds := b.smds ++ (pkg.findall "smd").filterMap smdFromXml },
         ((pkg.findall "wire").filterMap (fun el => wireFromXml el "package")).map Shape.wire
           ++ ((pkg.findall "pad").filterMap padFromXml).map Shape.pad
           ++ ((pkg.findall "smd").filterMap smdFromXml).map Shape.smd
           ++ ((pkg.findall "circle").filterMap circleFromXml).map Shape.circle
           ++ ((pkg.findall "rectangle").filterMap rectFromXml).map Shape.rect
           ++ ((pkg.findall "polygon").filterMap (fun el => polygonFromXml el "")).map
                Shape.poly) := by
  simp only [parse_package_core]
  rw [foldl_pkgWireStep, foldl_pkgPadStep, foldl_pkgSmdStep, foldl_pkgCircleStep,
    foldl_pkgRectStep, foldl_pkgPolyStep]
  simp [List.append_assoc]

theorem filterMap_of_map_eq_self {α : Type} (f : α → Shape) (g : Shape → Option α)
    (hg : ∀ a, g (f a) = some a) (l : List α) : (l.map f).filterMap g = l := by
  induction l with
  | nil => rfl
  | cons a t ih => simp [List.filterMap_cons, hg, ih]

theorem filterMap_of_map_eq_nil {α γ : Type} (f : α → Shape) (g : Shape → Option γ)
    (hg : ∀ a, g (f a) = none) (l : List α) : (l.map f).filterMap g = [] := by
  induction l with
  | nil => rfl
  | cons a t ih => simp [List.filterMap_cons, hg, ih]

/-- C10: parsing a package appends its wires, pads and smds (the same
untransformed, package-local values stored in the collected shape list)
to the flat board lists, leaves polygons, vias, texts and elements
untouched (package circles, rectangles and polygons live only in the
shape list; the Board has no flat circle or rectangle list at all), and
stores the shape list in the package table under the package name. -/
theorem c10_package_shapes_flat_lists (b : Board) (pkg : Xml) :
    (parse_package b pkg).wires
      = b.wires ++ (parse_package_core b pkg).2.filterMap Shape.wireOf ∧
    (parse_package b pkg).pads
      = b.pads ++ (parse_package_core b pkg).2.filterMap Shape.padOf ∧
    (parse_package b pkg).smds
      = b.smds ++ (parse_package_core b pkg).2.filterMap Shape.smdOf ∧
    (parse_package b pkg).polygons = b.polygons ∧
    (parse_package b pkg).vias = b.vias ∧
    (parse_package b pkg).texts = b.texts ∧
    (parse_package b pkg).elements = b.elements ∧
    (parse_package b pkg).packages
      = dictInsert b.packages (Xml.getD pkg "name" "")
          (parse_package_core b pkg).2 := by
  have hW : ∀ (l : List Wire), (l.map Shape.wire).filterMap Shape.wireOf = l :=
    filterMap_of_map_eq_self _ _ (fun a => rfl)
  have hP : ∀ (l : List Pad), (l.map Shape.pad).filterMap Shape.padOf = l :=
    filterMap_of_map_eq_self _ _ (fun a => rfl)
  have hS : ∀ (l : List SMD), (l.map Shape.smd).filterMap Shape.smdOf = l :=
    filterMap_of_map_eq_self _ _ (fun a => rfl)
  have hWp : ∀ (l : List Pad), (l.map Shape.pad).filterMap Shape.wireOf = [] :=
    filterMap_of_map_eq_nil _ _ (fun a => rfl)
  have hWs : ∀ (l : List SMD), (l.map Shape.smd).filterMap Shape.wireOf = [] :=
    filterMap_of_map_eq_nil _ _ (fun a => rfl)
  have hWc : ∀ (l : List Circle), (l.map Shape.circle).filterMap Shape.wireOf = [] :=
    filterMap_of_map_eq_nil _ _ (fun a => rfl)
  have hWr : ∀ (l : List Rect), (l.map Shape.rect).filterMap Shape.wireOf = [] :=
    filterMap_of_map_eq_nil _ _ (fun a => rfl)
  have hWy : ∀ (l : List Polygon), (l.map Shape.poly).filterMap Shape.wireOf = [] :=
    filterMap_of_map_eq_nil _ _ (fun a => rfl)
  have hPw : ∀ (l : List Wire), (l.map Shape.wire).filterMap Shape.padOf = [] :=
    filterMap_of_map_eq_nil _ _ (fun a => rfl)
  have hPs : ∀ (l : List SMD), (l.map Shape.smd).filterMap Shape.padOf = [] :=
    filterMap_of_map_eq_nil _ _ (fun a => rfl)
  have hPc : ∀ (l : List Circle), (l.map Shape.circle).filterMap Shape.padOf = [] :=
    filterMap_of_map_eq_nil _ _ (fun a => rfl)
  have hPr : ∀ (l : List Rect), (l.map Shape.rect).filterMap Shape.padOf = [] :=
    filterMap_of_map_eq_nil _ _ (fun a => rfl)
  have hPy : ∀ (l : List Polygon), (l.map Shape.poly).filterMap Shape.padOf = [] :=
    filterMap_of_map_eq_nil _ _ (fun a => rfl)
  have hSw : ∀ (l : List Wire), (l.map Shape.wire).filterMap Shape.smdOf = [] :=
    filterMap_of_map_eq_nil _ _ (fun a => rfl)
  have hSp : ∀ (l : List Pad), (l.map Shape.pad).filterMap Shape.smdOf = [] :=
    filterMap_of_map_eq_nil _ _ (fun a => rfl)
  have hSc : ∀ (l : List Circle), (l.map Shape.circle).filterMap Shape.smdOf = [] :=
    filterMap_of_map_eq_nil _ _ (fun a => rfl)
  have hSr : ∀ (l : List Rect), (l.map Shape.rect).filterMap Shape.smdOf = [] :=
    filterMap_of_map_eq_nil _ _ (fun a => rfl)
  have hSy : ∀ (l : List Polygon), (l.map Shape.poly).filterMap Shape.smdOf = [] :=
    filterMap_of_map_eq_nil _ _ (fun a => rfl)
  unfold parse_package
  rw [parse_package_core_eq]
  simp [List.filterMap_append, hW, hP, hS, hWp, hWs, hWc, hWr, hWy,
    hPw, hPs, hPc, hPr, hPy, hSw, hSp, hSc, hSr, hSy]

/-- C6 counterexample: a document with both root containers present but
whose single placement has the malformed rot descriptor X makes the
whole parse fail (the uncaught float conversion inside the bounds pass),
instead of the element merely being skipped. -/
theorem c6_counterexample :
    Xml.find? exBadRoot "drawing" = some exBadDrawing ∧
    Xml.find? exBadDrawing "board" = some exBadBrd ∧
    eagle_parse cosDeg sinDeg (some exBadRoot)
      = .error "ValueError: could not convert rot to float" := by
  refine ⟨rfl, rfl, by with_unfolding_all rfl⟩

/-- C6 (amended): parse succeeds exactly when the document is readable,
the drawing and board containers are present, AND every stored placement
rot descriptor converts (the bounds pass re-parses placement descriptors
outside any exception handler, so a malformed placement rot aborts the
whole parse); any other malformed element is skipped by itself: dropping
a wire whose attributes fail conversion from a wire loop leaves the
resulting board unchanged. -/
theorem c6_structural_failure_only (cosD sinD : ℚ → ℚ) (doc : Option Xml) :
    (isOkExcept (eagle_parse cosD sinD doc) = true ↔
      ∃ root drawing brd, doc = some root ∧
        Xml.find? root "drawing" = some drawing ∧
        Xml.find? drawing "board" = some brd ∧
        ∀ e ∈ (build_board drawing brd).elements,
          (parse_rot e.rot).isSome = true) ∧
    (∀ (bb : Board) (l1 l2 : List Xml) (el : Xml) (kind : String),
      wireFromXml el kind = none →
        (l1 ++ el :: l2).foldl (fun acc w => (add_wire_from_xml acc w kind).1) bb
          = (l1 ++ l2).foldl (fun acc w => (add_wire_from_xml acc w kind).1) bb) := by
  constructor
  · cases doc with
    | none => simp [eagle_parse, isOkExcept]
    | some root =>
        cases hd : root.find? "drawing" with
        | none =>
            simp only [eagle_parse, hd, isOkExcept]
            simp [hd]
        | some drawing =>
            cases hb : drawing.find? "board" with
            | none =>
                simp only [eagle_parse, hd, hb, isOkExcept]
                simp [hd, hb]
            | some brd =>
                have hok : isOkExcept (eagle_parse cosD sinD (some root))
                    = isOkExcept
                        (compute_bounds cosD sinD (build_board drawing brd)) := by
                  simp only [eagle_parse, hd, hb]
                  cases hcb : compute_bounds cosD sinD (build_board drawing brd) <;>
                    simp [isOkExcept]
                rw [hok, compute_bounds_ok_iff]
                constructor
                · intro hall
                  exact ⟨root, drawing, brd, rfl, hd, hb, hall⟩
                · rintro ⟨r2, d2, b2, hr2, hd2, hb2, hall⟩
                  obtain rfl : root = r2 := by injection hr2
                  rw [hd] at hd2
                  obtain rfl : drawing = d2 := by injection hd2
                  rw [hb] at hb2
                  obtain rfl : brd = b2 := by injection hb2
                  exact hall
  · intro bb l1 l2 el kind hw
    have hstep : ∀ acc : Board, (add_wire_from_xml acc el kind).1 = acc := by
      intro acc
      unfold add_wire_from_xml
      rw [hw]
    rw [List.foldl_append, List.foldl_append, List.foldl_cons, hstep]

/-- C6 witness: the skip-locality part instantiated with a wire whose
x1 attribute is not numeric, dropped from a plain wire loop between a
good wire and the end of the list. -/
theorem c6_witness :
    ([exGoodWireXml] ++ exBadWireXml :: []).foldl
        (fun acc w => (add_wire_from_xml acc w "plain").1) Board.empty
      = ([exGoodWireXml] ++ []).foldl
        (fun acc w => (add_wire_from_xml acc w "plain").1) Board.empty :=
  (c6_structural_failure_only cosDeg sinDeg none).2 Board.empty [exGoodWireXml] []
    exBadWireXml "plain" (by with_unfolding_all rfl)

end Brd
